import Mathlib

/-!
A verification development for the spi-fat-fuse adapter layer: a shallow
embedding of `src/src/spi-fat-fuse.c` (with the earlier `src/spi_fat_fuse.c`
sharing the same error translator), together with theorems settling the
behavioural claims about the adapter.

Conventions of the embedding:
* C `int`/`unsigned` values are modelled as `Nat`/`Int`; all values involved
  are small and nonnegative where `Nat` is used.
* Paths and file names are `List Char`.
* The FAT volume engine (FatFs, `ff.h`) is an external collaborator: its
  result codes are the inductive `FRESULT`, and each engine primitive's
  outcome is passed in as a parameter or modelled at its boundary
  (directory streams, stat results, open results).
* The FUSE filler callback is modelled as a state-passing function whose
  boolean result `true` corresponds to a nonzero C return ("buffer full").
-/

namespace SpiFatFuse

/-- POSIX errno values (Linux), used negated by the adapter. -/
def EINTR : Int := 4

def ENOMEM : Int := 12

def ENOENT : Int := 2

def EACCES : Int := 13

def ENOSPC : Int := 28

def ENODEV : Int := 19

def ENAMETOOLONG : Int := 36

def ENFILE : Int := 23

/-- Engine result codes (`FRESULT` of the external FatFs engine, `ff.h`). -/
inductive FRESULT where
  | FR_OK
  | FR_DISK_ERR
  | FR_INT_ERR
  | FR_NOT_READY
  | FR_NO_FILE
  | FR_NO_PATH
  | FR_INVALID_NAME
  | FR_DENIED
  | FR_EXIST
  | FR_INVALID_OBJECT
  | FR_WRITE_PROTECTED
  | FR_INVALID_DRIVE
  | FR_NOT_ENABLED
  | FR_NO_FILESYSTEM
  | FR_MKFS_ABORTED
  | FR_TIMEOUT
  | FR_LOCKED
  | FR_NOT_ENOUGH_CORE
  | FR_TOO_MANY_OPEN_FILES
  | FR_INVALID_PARAMETER
  deriving DecidableEq, Repr, Fintype

/-- The engine result codes named by a `case` label in the C `switch` of
`FRESULT_TO_OSCODE` (every other code falls to the `default` branch). -/
def recognizedResults : List FRESULT :=
  [.FR_OK, .FR_DISK_ERR, .FR_INT_ERR, .FR_NOT_READY, .FR_NO_FILE, .FR_NO_PATH,
   .FR_INVALID_NAME, .FR_DENIED, .FR_EXIST, .FR_INVALID_OBJECT,
   .FR_WRITE_PROTECTED, .FR_INVALID_DRIVE, .FR_NOT_ENABLED, .FR_NO_FILESYSTEM,
   .FR_MKFS_ABORTED, .FR_TIMEOUT, .FR_LOCKED, .FR_NOT_ENOUGH_CORE,
   .FR_TOO_MANY_OPEN_FILES]

/-- `FRESULT_TO_OSCODE` (src/src/spi-fat-fuse.c lines 103-168; identical in
src/spi_fat_fuse.c lines 59-124): engine result code to adapter error code. -/
def FRESULT_TO_OSCODE : FRESULT → Int
  | .FR_OK => 0
  | .FR_DISK_ERR => -EINTR
  | .FR_INT_ERR => -ENOMEM
  | .FR_NOT_READY => -EINTR
  | .FR_NO_FILE => -ENOENT
  | .FR_NO_PATH => -ENOENT
  | .FR_INVALID_NAME => -ENOENT
  | .FR_DENIED => -EACCES
  | .FR_EXIST => -EACCES
  | .FR_INVALID_OBJECT => -ENOENT
  | .FR_WRITE_PROTECTED => -EACCES
  | .FR_INVALID_DRIVE => -EACCES
  | .FR_NOT_ENABLED => -ENOSPC
  | .FR_NO_FILESYSTEM => -ENODEV
  | .FR_MKFS_ABORTED => -ENODEV
  | .FR_TIMEOUT => -EACCES
  | .FR_LOCKED => -EACCES
  | .FR_NOT_ENOUGH_CORE => -ENAMETOOLONG
  | .FR_TOO_MANY_OPEN_FILES => -ENFILE
  | _ => -ENOENT

/-- The character-by-character scan of `renameHidden` (src/src/spi-fat-fuse.c
lines 80-100): a `'.'` at position `i > 0` whose predecessor in the output
buffer is `'/'` is rewritten to `'_'`. `prev` is the character already written
at position `i - 1` (`none` at position 0). Checking the written predecessor
is equivalent to checking the input one, since the scan only ever rewrites
`'.'` to `'_'` and so never creates or destroys a `'/'`. -/
def renameHiddenAux : Option Char → List Char → List Char
  | _, [] => []
  | prev, c :: rest =>
      let c' := if prev = some '/' ∧ c = '.' then '_' else c
      c' :: renameHiddenAux (some c') rest

/-- `renameHidden` (src/src/spi-fat-fuse.c lines 80-100) on the path
contents, eliding the 255-byte output buffer (all paths considered fit). -/
def renameHidden (p : List Char) : List Char := renameHiddenAux none p

/-- The on-the-fly demangling of an engine file name during enumeration
(src/src/spi-fat-fuse.c lines 471-478): a leading `'_'` becomes `'.'`. -/
def demangleName : List Char → List Char
  | [] => []
  | c :: rest => (if c = '_' then '.' else c) :: rest

/-- The final path component: the suffix after the last `'/'`. -/
def finalName (p : List Char) : List Char :=
  (p.reverse.takeWhile (fun c => c ≠ '/')).reverse

/-- The fields of C `struct tm` used by the timestamp codec (`tm_year` is
years since 1900, `tm_mon` is 0-based; all values modelled are in range and
nonnegative). -/
structure Tm where
  tm_year : Nat
  tm_mon : Nat
  tm_mday : Nat
  tm_hour : Nat
  tm_min : Nat
  tm_sec : Nat
  deriving DecidableEq, Repr

/-- `unixTimestampToFATTimestamp` (src/src/spi-fat-fuse.c lines 171-183):
packs a civil time into the engine's 32-bit FAT date/time form. -/
def unixTimestampToFATTimestamp (t : Tm) : Nat :=
  ((t.tm_year - 80) <<< 25) ||| ((t.tm_mon + 1) <<< 21) |||
    (t.tm_mday <<< 16) ||| (t.tm_hour <<< 11) ||| (t.tm_min <<< 5) |||
    (t.tm_sec >>> 1)

/-- `FATTimestampToDateTime` (src/src/spi-fat-fuse.c lines 185-193):
splits a packed FAT timestamp into the engine's `fdate`/`ftime` words. -/
def FATTimestampToDateTime (f : Nat) : Nat × Nat :=
  ((f &&& 0xffff0000) >>> 16, f &&& 0x0000ffff)

/-- `FATTimestampToUNIX` (src/src/spi-fat-fuse.c lines 195-207): unpacks a
packed FAT timestamp into civil-time fields. -/
def FATTimestampToUNIX (f : Nat) : Tm :=
  { tm_year := ((f &&& 0xfe000000) >>> 25) + 80
    tm_mon := ((f &&& 0x1e00000) >>> 21) - 1
    tm_mday := (f &&& 0x1f0000) >>> 16
    tm_hour := (f &&& 0xf800) >>> 11
    tm_min := (f &&& 0x7e0) >>> 5
    tm_sec := (f &&& 0x1f) >>> 1 }

/-- `FATDateTimeToUNIX` (src/src/spi-fat-fuse.c lines 210-218): repacks an
`fdate`/`ftime` pair and unpacks it into civil-time fields. -/
def FATDateTimeToUNIX (fdate ftime : Nat) : Tm :=
  FATTimestampToUNIX ((fdate <<< 16) ||| ftime)

/-- `_lazy_mount` (src/src/spi-fat-fuse.c lines 242-271). State is the
single static `fatfs` slot, abstracted to `mounted : Bool` (`fatfs ≠ NULL`);
`allocOk` models whether `malloc` succeeds and `mountRes` is the engine's
`f_mount` reply. Returns (adapter return value, mounted afterwards, whether
the engine mount primitive was invoked). -/
def _lazy_mount (mounted allocOk : Bool) (mountRes : FRESULT) :
    Int × Bool × Bool :=
  if mounted then (0, true, false)
  else if ¬allocOk then (FRESULT_TO_OSCODE .FR_DISK_ERR, false, false)
  else if mountRes = .FR_OK then (0, true, true)
  else (FRESULT_TO_OSCODE mountRes, false, true)

/-- An engine file object (`FIL` of `ff.h`), opaque to the adapter. -/
structure FIL where
  id : Nat
  deriving DecidableEq, Repr

/-- `spi_fat_fuse_read` (src/src/spi-fat-fuse.c lines 581-608). `fh` is the
`fi->fh` slot (`none` = 0/NULL); `seekRes`/`readRes` are the engine replies
to `f_lseek`/`f_read` and `bread` the byte count the engine transfers.
Note the null-handle branch returns the positive constant `ENOENT`
(line 592 reads `return ENOENT;`, not `-ENOENT`). -/
def spi_fat_fuse_read (fh : Option FIL) (seekRes readRes : FRESULT)
    (bread : Nat) : Int :=
  match fh with
  | none => ENOENT
  | some _ =>
      if seekRes ≠ .FR_OK then FRESULT_TO_OSCODE seekRes
      else if readRes ≠ .FR_OK then FRESULT_TO_OSCODE readRes
      else (bread : Int)

/-- `spi_fat_fuse_write` (src/src/spi-fat-fuse.c lines 610-637); the
null-handle branch likewise returns positive `ENOENT` (line 621). -/
def spi_fat_fuse_write (fh : Option FIL) (seekRes writeRes : FRESULT)
    (bwrite : Nat) : Int :=
  match fh with
  | none => ENOENT
  | some _ =>
      if seekRes ≠ .FR_OK then FRESULT_TO_OSCODE seekRes
      else if writeRes ≠ .FR_OK then FRESULT_TO_OSCODE writeRes
      else (bwrite : Int)

/-- `spi_fat_fuse_flush` (src/src/spi-fat-fuse.c lines 653-667): lazy mount,
then the null-handle check (positive `ENOENT`, line 661), then `f_sync`. -/
def spi_fat_fuse_flush (mounted allocOk : Bool) (mountRes : FRESULT)
    (fh : Option FIL) (syncRes : FRESULT) : Int :=
  let lm := _lazy_mount mounted allocOk mountRes
  if lm.1 ≠ 0 then lm.1
  else
    match fh with
    | none => ENOENT
    | some _ => FRESULT_TO_OSCODE syncRes

/-- `spi_fat_fuse_release` (src/src/spi-fat-fuse.c lines 564-579): on a
null handle returns positive `ENOENT` (line 570); otherwise calls `f_close`
and returns its translated result, leaving `fi->fh` unchanged (the source
neither clears `fi->fh` nor frees the `FIL`). Returns (return value,
`fi->fh` afterwards, whether `f_close` was invoked). -/
def spi_fat_fuse_release (fh : Option FIL) (closeRes : FRESULT) :
    Int × Option FIL × Bool :=
  match fh with
  | none => (ENOENT, none, false)
  | some fp => (FRESULT_TO_OSCODE closeRes, some fp, true)

/-- Engine primitives invoked by an adapter operation, with the arguments
the adapter hands across the engine boundary. -/
inductive EngineCall where
  | f_open (path : List Char) (mode : Nat)
  | f_stat (path : List Char)
  | f_mkdir (path : List Char)
  | f_rmdir (path : List Char)
  | f_unlink (path : List Char)
  | f_utime (path : List Char) (fdate ftime : Nat)
  deriving DecidableEq, Repr

/-- Linux `fcntl.h` open flags used by the adapter. -/
def O_RDONLY : Nat := 0

def O_CREAT : Nat := 64

def O_ASYNC : Nat := 8192

/-- FatFs access-mode bits (`ff.h`). -/
def FA_READ : Nat := 1

def FA_WRITE : Nat := 2

def FA_CREATE_NEW : Nat := 4

/-- The access-mode computation of `spi_fat_fuse_open` (src/src/spi-fat-fuse.c
lines 531-539): default read-write; `O_ASYNC` set selects read-only;
otherwise `O_CREAT` set selects write-create-new. -/
def openMode (flags : Nat) : Nat :=
  if flags &&& O_ASYNC = O_ASYNC then FA_READ
  else if flags &&& O_CREAT = O_CREAT then FA_WRITE ||| FA_CREATE_NEW
  else FA_READ ||| FA_WRITE

/-- Result of `spi_fat_fuse_open`: return value, the `fi->fh` handle slot,
the engine calls made, and the mount slot afterwards. -/
structure OpenOut where
  rv : Int
  fh : Option FIL
  calls : List EngineCall
  mounted : Bool
  deriving DecidableEq, Repr

/-- `spi_fat_fuse_open` (src/src/spi-fat-fuse.c lines 524-562): computes the
access mode, allocates a `FIL` (failure returns positive `ENOENT`,
line 543), demangles the path with `renameHidden`, and calls `f_open`; on
engine failure clears `fi->fh` and returns the translated error, on success
stores the file object in `fi->fh`. There is no lazy-mount step: the
`fatfs` slot (`mounted`) is never read or written. -/
def spi_fat_fuse_open (path : List Char) (flags : Nat) (allocOk : Bool)
    (engineOpen : List Char → Nat → FRESULT) (mounted : Bool) : OpenOut :=
  let mode := openMode flags
  if ¬allocOk then ⟨ENOENT, none, [], mounted⟩
  else
    let lpath := renameHidden path
    let res := engineOpen lpath mode
    if res ≠ .FR_OK then
      ⟨FRESULT_TO_OSCODE res, none, [.f_open lpath mode], mounted⟩
    else ⟨0, some ⟨1⟩, [.f_open lpath mode], mounted⟩

/-- The adapter's shared state as the NOP operations see it: the mount
slot, the open-handle slots, and the engine's on-volume data (abstract). -/
structure AdapterState where
  mounted : Bool
  handles : List (Nat × FIL)
  volume : List (List Char × List Nat)
  deriving DecidableEq, Repr

/-- `spi_fat_fuse_chmod` (src/src/spi-fat-fuse.c lines 687-690): a NOP that
returns `FRESULT_TO_OSCODE(FR_OK)`, touching no state and calling no
engine primitive. -/
def spi_fat_fuse_chmod (path : List Char) (mode : Nat) (s : AdapterState) :
    Int × AdapterState × List EngineCall :=
  (FRESULT_TO_OSCODE .FR_OK, s, [])

/-- `spi_fat_fuse_chown` (src/src/spi-fat-fuse.c lines 692-695): NOP. -/
def spi_fat_fuse_chown (path : List Char) (uid gid : Nat)
    (s : AdapterState) : Int × AdapterState × List EngineCall :=
  (FRESULT_TO_OSCODE .FR_OK, s, [])

/-- `spi_fat_fuse_truncate` (src/src/spi-fat-fuse.c lines 697-700): NOP. -/
def spi_fat_fuse_truncate (path : List Char) (off : Nat)
    (s : AdapterState) : Int × AdapterState × List EngineCall :=
  (FRESULT_TO_OSCODE .FR_OK, s, [])

/-- `spi_fat_fuse_unlink` (src/src/spi-fat-fuse.c lines 643-651): calls
`f_unlink` on the caller's path as supplied — no `renameHidden`, and no
lazy-mount step. `res` is the engine's reply. -/
def spi_fat_fuse_unlink (path : List Char) (res : FRESULT) :
    Int × List EngineCall :=
  (FRESULT_TO_OSCODE res, [.f_unlink path])

/-- `spi_fat_fuse_mkdir` (src/src/spi-fat-fuse.c lines 335-342): lazy
mount, then `f_mkdir` on the caller's path as supplied (no
`renameHidden`). -/
def spi_fat_fuse_mkdir (path : List Char) (mounted allocOk : Bool)
    (mountRes res : FRESULT) : Int × Bool × List EngineCall :=
  let lm := _lazy_mount mounted allocOk mountRes
  if lm.1 ≠ 0 then (lm.1, lm.2.1, [])
  else (FRESULT_TO_OSCODE res, lm.2.1, [.f_mkdir path])

/-- `spi_fat_fuse_rmdir` (src/src/spi-fat-fuse.c lines 344-351): lazy
mount, then `f_rmdir` on the caller's path as supplied. -/
def spi_fat_fuse_rmdir (path : List Char) (mounted allocOk : Bool)
    (mountRes res : FRESULT) : Int × Bool × List EngineCall :=
  let lm := _lazy_mount mounted allocOk mountRes
  if lm.1 ≠ 0 then (lm.1, lm.2.1, [])
  else (FRESULT_TO_OSCODE res, lm.2.1, [.f_rmdir path])

/-- `spi_fat_fuse_utimens` (src/src/spi-fat-fuse.c lines 669-685): ignores
the supplied times, packs "now" (`now` models the `localtime` result) into
`fdate`/`ftime`, and calls `f_utime` on the caller's path as supplied (no
`renameHidden`, no lazy-mount step). -/
def spi_fat_fuse_utimens (path : List Char) (now : Tm) (res : FRESULT) :
    Int × List EngineCall :=
  let fat := unixTimestampToFATTimestamp now
  let dt := FATTimestampToDateTime fat
  (FRESULT_TO_OSCODE res, [.f_utime path dt.1 dt.2])

/-- The engine's file-information record (`FILINFO` of `ff.h`). -/
structure FILINFO where
  fname : List Char
  fsize : Nat
  fattrib : Nat
  fdate : Nat
  ftime : Nat
  deriving DecidableEq, Repr

/-- FatFs directory attribute bit (`AM_DIR` of `ff.h`). -/
def AM_DIR : Nat := 16

/-- POSIX file-kind mode bits. -/
def S_IFDIR : Nat := 16384

def S_IFREG : Nat := 32768

/-- The host-facing attribute record: the `struct stat` fields the adapter
fills (zero-initialised by `memset`). -/
structure Stat where
  st_mode : Nat
  st_nlink : Nat
  st_size : Nat
  st_blocks : Nat
  st_blksize : Nat
  st_ino : Nat
  st_mtime : Int
  deriving DecidableEq, Repr

/-- The all-zero `struct stat` produced by `memset`. -/
def zeroStat : Stat := ⟨0, 0, 0, 0, 0, 0, 0⟩

/-- The fixed attributes of the root directory in `spi_fat_fuse_getattr`
(src/src/spi-fat-fuse.c lines 286-290). -/
def rootStat : Stat :=
  { zeroStat with st_mode := S_IFDIR ||| 493, st_nlink := 2 }

/-- The attribute record `spi_fat_fuse_getattr` derives from an engine
`FILINFO` (src/src/spi-fat-fuse.c lines 315-322); `493 = 0755` and
`420 = 0644` in octal. -/
def getattrStat (finfo : FILINFO) : Stat :=
  if finfo.fattrib &&& AM_DIR = AM_DIR then
    { zeroStat with st_mode := S_IFDIR ||| 493, st_nlink := 2 }
  else
    { zeroStat with
        st_size := finfo.fsize
        st_mode := S_IFREG ||| 420
        st_nlink := 1 }

/-- The `fstat_retry` goto loop of `spi_fat_fuse_getattr`
(src/src/spi-fat-fuse.c lines 300-313): call `f_stat` (modelled as `stat`,
indexed by the attempt number), and on failure retry after a delay until
`ntries` reaches `maxtries`. -/
def fstat_retry (stat : Nat → FRESULT × FILINFO) (maxtries ntries : Nat) :
    FRESULT × FILINFO :=
  let r := stat ntries
  if r.1 = .FR_OK then r
  else if ntries ≥ maxtries then r
  else fstat_retry stat maxtries (ntries + 1)
termination_by maxtries + 1 - ntries
decreasing_by omega

/-- Result of `spi_fat_fuse_getattr`: return value, the filled `struct
stat` (if any), the mount slot afterwards, whether the engine mount
primitive was invoked, and the path handed to `f_stat` (if reached). -/
structure GetattrOut where
  rv : Int
  stbuf : Option Stat
  mounted : Bool
  mountCalled : Bool
  statPath : Option (List Char)
  deriving DecidableEq, Repr

/-- `spi_fat_fuse_getattr` (src/src/spi-fat-fuse.c lines 273-325): lazy
mount, root short-circuit, `renameHidden` path translation, then `f_stat`
under the bounded retry loop (`maxtries = 1`). -/
def spi_fat_fuse_getattr (path : List Char) (mounted allocOk : Bool)
    (mountRes : FRESULT) (stat : Nat → List Char → FRESULT × FILINFO) :
    GetattrOut :=
  let lm := _lazy_mount mounted allocOk mountRes
  if lm.1 ≠ 0 then ⟨lm.1, none, lm.2.1, lm.2.2, none⟩
  else if path = ['/'] then ⟨0, some rootStat, lm.2.1, lm.2.2, none⟩
  else
    let lpath := renameHidden path
    let r := fstat_retry (fun k => stat k lpath) 1 0
    if r.1 ≠ .FR_OK then
      ⟨FRESULT_TO_OSCODE r.1, none, lm.2.1, lm.2.2, some lpath⟩
    else ⟨0, some (getattrStat r.2), lm.2.1, lm.2.2, some lpath⟩

/-- The engine's directory stream at its boundary, as a zipper: `future`
holds the `(result, entry)` pairs successive `f_readdir` calls will yield,
`past` the already-consumed ones (so the stream can be rewound). The FAT
volume engine itself is outside this repository; this is its boundary
model. -/
structure DIRStream where
  past : List (FRESULT × FILINFO)
  future : List (FRESULT × FILINFO)
  deriving DecidableEq, Repr

/-- Engine `f_readdir` at the boundary: yields the next stream element; at
end of stream FatFs reports `FR_OK` with an empty name. -/
def f_readdir : DIRStream → FRESULT × FILINFO × DIRStream
  | ⟨past, []⟩ => (.FR_OK, ⟨[], 0, 0, 0, 0⟩, ⟨past, []⟩)
  | ⟨past, e :: rest⟩ => (e.1, e.2, ⟨e :: past, rest⟩)

/-- Engine `f_seekdir(dir, -1)` at the boundary: rewinds the directory
stream by exactly one entry (the spec's `seekdir` primitive). -/
def f_seekdir_back1 : DIRStream → FRESULT × DIRStream
  | ⟨[], fut⟩ => (.FR_OK, ⟨[], fut⟩)
  | ⟨e :: past, fut⟩ => (.FR_OK, ⟨past, e :: fut⟩)

/-- The attribute record injected for the synthetic `"."`/`".."` entries
(src/src/spi-fat-fuse.c lines 411-414): a directory with link count 2 and
the `FUSE_UNKNOWN_INO` inode value `0xffffffff = 4294967295`. -/
def dotStat : Stat :=
  { zeroStat with
      st_mode := S_IFDIR ||| 493
      st_nlink := 2
      st_ino := 4294967295 }

/-- The attribute record `spi_fat_fuse_readdir` derives from an engine
entry (src/src/spi-fat-fuse.c lines 440-469): directories get mode
directory/0755 with link count 2 and size 0; regular files get their size,
mode regular/0644, link count 1, a derived 512-byte block count, and a
modification time decoded through the timestamp codec (`mk` models the
libc `mktime`, whose `-1` failure value leaves the times zero). -/
def statOfFinfo (mk : Tm → Int) (finfo : FILINFO) : Stat :=
  if finfo.fattrib &&& AM_DIR = AM_DIR then
    { zeroStat with st_mode := S_IFDIR ||| 493, st_nlink := 2 }
  else
    let ltime := mk (FATDateTimeToUNIX finfo.fdate finfo.ftime)
    { zeroStat with
        st_size := finfo.fsize
        st_mode := S_IFREG ||| 420
        st_nlink := 1
        st_blocks := finfo.fsize / 512 +
          (if finfo.fsize % 512 ≠ 0 then 1 else 0)
        st_blksize := 512
        st_mtime := if ltime ≠ -1 then ltime else 0 }

/-- The FUSE filler callback at its boundary: given its own state, an entry
name, an attribute record and a position, it returns the new state and
`true` for a nonzero C return ("buffer full"). -/
def Filler (σ : Type) := σ → List Char → Stat → Nat → σ × Bool

/-- A recording filler: keeps the delivered `(name, attributes, position)`
triples and accepts an entry when `accept` holds of the number delivered so
far (rejecting once a buffer capacity is reached is `accept := (· < cap)`). -/
def recFiller (accept : Nat → Bool) :
    Filler (List (List Char × Stat × Nat)) :=
  fun s name st pos =>
    if accept s.length then (s ++ [(name, st, pos)], false) else (s, true)

/-- The `while` loop of `spi_fat_fuse_readdir` (src/src/spi-fat-fuse.c
lines 439-497), entered with the entry `finfo` just read and the position
counter `n`: an empty name ends the enumeration with `FR_OK`; otherwise the
entry's attribute record is built, its name demangled and handed to the
filler — a rejected delivery rewinds the stream by one and ends the call
with `FR_OK`; an accepted one advances the position and reads the next
entry, a read failure ending the call with that engine code. -/
def readdirLoop {σ : Type} (filler : Filler σ) (mk : Tm → Int)
    (past : List (FRESULT × FILINFO)) :
    List (FRESULT × FILINFO) → σ → FILINFO → Nat → FRESULT × DIRStream × σ
  | future, s, finfo, n =>
    if finfo.fname = [] then (.FR_OK, ⟨past, future⟩, s)
    else
      let st := statOfFinfo mk finfo
      let fr := filler s (demangleName finfo.fname) st n
      if fr.2 then (.FR_OK, (f_seekdir_back1 ⟨past, future⟩).2, fr.1)
      else
        match future with
        | [] => (.FR_OK, ⟨past, []⟩, fr.1)
        | e :: rest =>
          if e.1 = .FR_OK then
            readdirLoop filler mk (e :: past) rest fr.1 e.2 (n + 1)
          else (e.1, ⟨e :: past, rest⟩, fr.1)

/-- Result of `spi_fat_fuse_readdir`: return value, the directory stream
behind `fi->fh` afterwards, the filler state, and the mount slot. -/
structure ReaddirOut (σ : Type) where
  rv : Int
  fh : Option DIRStream
  fill : σ
  mounted : Bool

/-- `spi_fat_fuse_readdir` (src/src/spi-fat-fuse.c lines 377-501): lazy
mount; a null stream handle is rejected with `-ENOENT`; at offset 0 the
synthetic `"."`/`".."` entries are injected with the position counter
pre-incremented (a rejected injection is only logged); then the first
engine read — a failure there is translated and returned, an `FR_DISK_ERR`
additionally clearing the mount slot (the media was likely ejected) — and
the enumeration loop. -/
def spi_fat_fuse_readdir {σ : Type} (filler : Filler σ) (mk : Tm → Int)
    (offset : Nat) (fh : Option DIRStream) (s : σ) (mounted allocOk : Bool)
    (mountRes : FRESULT) : ReaddirOut σ :=
  let lm := _lazy_mount mounted allocOk mountRes
  if lm.1 ≠ 0 then ⟨lm.1, fh, s, lm.2.1⟩
  else
    match fh with
    | none => ⟨-ENOENT, none, s, lm.2.1⟩
    | some dir =>
      let n0 := offset + 1
      let sn :=
        if offset = 0 then
          let f1 := filler s ['.'] dotStat n0
          let f2 := filler f1.1 ['.', '.'] dotStat (n0 + 1)
          (f2.1, n0 + 2)
        else (s, n0)
      let rd := f_readdir dir
      if rd.1 ≠ .FR_OK then
        if rd.1 = .FR_DISK_ERR then
          ⟨FRESULT_TO_OSCODE rd.1, some rd.2.2, sn.1, false⟩
        else ⟨FRESULT_TO_OSCODE rd.1, some rd.2.2, sn.1, lm.2.1⟩
      else
        let lp := readdirLoop filler mk rd.2.2.past rd.2.2.future sn.1
          rd.2.1 sn.2
        ⟨FRESULT_TO_OSCODE lp.1, some lp.2.1, lp.2.2, lm.2.1⟩

/-- C1: the error translator maps every engine result code to the adapter
error code given by the spec's section 7 table, and every code not named in
the `switch` falls to the conservative `NotFound` default. -/
theorem fresult_to_oscode_table :
    FRESULT_TO_OSCODE .FR_OK = 0 ∧
    FRESULT_TO_OSCODE .FR_DISK_ERR = -EINTR ∧
    FRESULT_TO_OSCODE .FR_NOT_READY = -EINTR ∧
    FRESULT_TO_OSCODE .FR_INT_ERR = -ENOMEM ∧
    FRESULT_TO_OSCODE .FR_NO_FILE = -ENOENT ∧
    FRESULT_TO_OSCODE .FR_NO_PATH = -ENOENT ∧
    FRESULT_TO_OSCODE .FR_INVALID_NAME = -ENOENT ∧
    FRESULT_TO_OSCODE .FR_INVALID_OBJECT = -ENOENT ∧
    FRESULT_TO_OSCODE .FR_DENIED = -EACCES ∧
    FRESULT_TO_OSCODE .FR_EXIST = -EACCES ∧
    FRESULT_TO_OSCODE .FR_WRITE_PROTECTED = -EACCES ∧
    FRESULT_TO_OSCODE .FR_INVALID_DRIVE = -EACCES ∧
    FRESULT_TO_OSCODE .FR_LOCKED = -EACCES ∧
    FRESULT_TO_OSCODE .FR_TIMEOUT = -EACCES ∧
    FRESULT_TO_OSCODE .FR_NOT_ENABLED = -ENOSPC ∧
    FRESULT_TO_OSCODE .FR_NO_FILESYSTEM = -ENODEV ∧
    FRESULT_TO_OSCODE .FR_MKFS_ABORTED = -ENODEV ∧
    FRESULT_TO_OSCODE .FR_NOT_ENOUGH_CORE = -ENAMETOOLONG ∧
    FRESULT_TO_OSCODE .FR_TOO_MANY_OPEN_FILES = -ENFILE ∧
    (∀ r : FRESULT, r ∉ recognizedResults → FRESULT_TO_OSCODE r = -ENOENT) := by
  refine ⟨rfl, rfl, rfl, rfl, rfl, rfl, rfl, rfl, rfl, rfl, rfl, rfl, rfl,
    rfl, rfl, rfl, rfl, rfl, rfl, ?_⟩
  decide

/-- Witness for the hypothesis-bearing clause of `fresult_to_oscode_table`:
the one engine code outside the `switch` labels is translated to `-ENOENT`. -/
theorem fresult_to_oscode_table_witness :
    FRESULT_TO_OSCODE .FR_INVALID_PARAMETER = -ENOENT :=
  fresult_to_oscode_table.2.2.2.2.2.2.2.2.2.2.2.2.2.2.2.2.2.2.2
    .FR_INVALID_PARAMETER (by decide)

theorem renameHiddenAux_append (p : Option Char) (d n : List Char) :
    renameHiddenAux p (d ++ '/' :: n)
      = renameHiddenAux p d ++ '/' :: renameHiddenAux (some '/') n := by
  induction d generalizing p with
  | nil => simp [renameHiddenAux]
  | cons c rest ih => simp [renameHiddenAux, ih]

theorem renameHiddenAux_no_slash (p : Option Char) (n : List Char)
    (hp : p ≠ some '/') (hn : '/' ∉ n) : renameHiddenAux p n = n := by
  induction n generalizing p with
  | nil => rfl
  | cons c rest ih =>
      have hc : c ≠ '/' := fun h => hn (h ▸ List.mem_cons_self c rest)
      have hrest : '/' ∉ rest := fun h => hn (List.mem_cons_of_mem c h)
      have : ¬(p = some '/' ∧ c = '.') := fun h => hp h.1
      simp only [renameHiddenAux, if_neg this]
      exact congrArg (c :: ·) (ih (some c)
        (fun h => hc (Option.some_inj.mp h)) hrest)

theorem renameHiddenAux_after_slash_dot (t : List Char) (ht : '/' ∉ t) :
    renameHiddenAux (some '/') ('.' :: t) = '_' :: t := by
  have h2 := renameHiddenAux_no_slash (some '_') t (by decide) ht
  simp [renameHiddenAux, h2]

theorem renameHiddenAux_length (p : Option Char) (n : List Char) :
    (renameHiddenAux p n).length = n.length := by
  induction n generalizing p with
  | nil => rfl
  | cons c rest ih => simp [renameHiddenAux, ih]

theorem takeWhile_append_no_slash (l r : List Char) (hl : '/' ∉ l) :
    (l ++ '/' :: r).takeWhile (fun c => c ≠ '/') = l := by
  induction l with
  | nil => simp [List.takeWhile]
  | cons c rest ih =>
      have hc : c ≠ '/' := fun h => hl (h ▸ List.mem_cons_self c rest)
      have hrest : '/' ∉ rest := fun h => hl (List.mem_cons_of_mem c h)
      have h3 := ih hrest
      simp only [List.cons_append, List.takeWhile_cons]
      simp only [hc, decide_not, ne_eq, decide_eq_true_eq] at h3 ⊢
      simp [hc, h3]

theorem finalName_append (d n : List Char) (hn : '/' ∉ n) :
    finalName (d ++ '/' :: n) = n := by
  unfold finalName
  have h1 : (d ++ '/' :: n).reverse = n.reverse ++ '/' :: d.reverse := by
    simp
  rw [h1, takeWhile_append_no_slash n.reverse d.reverse (by simpa using hn),
    List.reverse_reverse]

theorem renameHidden_hidden_final (d t : List Char) (ht : '/' ∉ t) :
    renameHidden (d ++ '/' :: '.' :: t)
      = renameHidden d ++ '/' :: '_' :: t := by
  unfold renameHidden
  rw [renameHiddenAux_append, renameHiddenAux_after_slash_dot t ht]

/-- C6: hidden-name translation. For any host path whose final component
starts with `'.'`: crossing into engine space rewrites the leading `'.'`
(immediately after the `'/'` separator) to `'_'`; surfacing the engine name
back to the host rewrites the leading `'_'` to `'.'`; and translating the
surfaced host path again reproduces the original engine path (the round
trip `to_engine (to_host (to_engine p)) = to_engine p`). -/
theorem renameHidden_roundtrip (d t : List Char) (ht : '/' ∉ t) :
    renameHidden (d ++ '/' :: '.' :: t)
        = renameHidden d ++ '/' :: '_' :: t ∧
    demangleName ('_' :: t) = '.' :: t ∧
    renameHidden
        (d ++ '/' :: demangleName (finalName (renameHidden (d ++ '/' :: '.' :: t))))
      = renameHidden (d ++ '/' :: '.' :: t) := by
  have h1 := renameHidden_hidden_final d t ht
  refine ⟨h1, rfl, ?_⟩
  rw [h1, finalName_append _ _ (by simpa using ht)]
  show renameHidden (d ++ '/' :: '.' :: t) = _
  rw [h1]

/-- Witness for `renameHidden_roundtrip` at `d = "/sub"`, `t = "cfg"`
(host path `"/sub/.cfg"`). -/
theorem renameHidden_roundtrip_witness :
    renameHidden (['/', 's', 'u', 'b'] ++ '/' :: '.' :: ['c', 'f', 'g'])
        = renameHidden ['/', 's', 'u', 'b'] ++ '/' :: '_' :: ['c', 'f', 'g'] ∧
    demangleName ('_' :: ['c', 'f', 'g']) = '.' :: ['c', 'f', 'g'] ∧
    renameHidden
        (['/', 's', 'u', 'b'] ++ '/' ::
          demangleName (finalName (renameHidden
            (['/', 's', 'u', 'b'] ++ '/' :: '.' :: ['c', 'f', 'g']))))
      = renameHidden (['/', 's', 'u', 'b'] ++ '/' :: '.' :: ['c', 'f', 'g']) :=
  renameHidden_roundtrip ['/', 's', 'u', 'b'] ['c', 'f', 'g'] (by decide)

/-- C7: encoding the civil time 2021-06-15 14:30:00 (`tm_year = 121`,
`tm_mon = 5`, seconds 0) into packed FAT form and decoding it back yields
the same year, month, day, hour and minute, with the seconds equal to the
original seconds truncated to FAT's 2-second resolution. -/
theorem fat_timestamp_roundtrip_2021_06_15 :
    FATTimestampToUNIX
        (unixTimestampToFATTimestamp ⟨121, 5, 15, 14, 30, 0⟩)
      = ⟨121, 5, 15, 14, 30, 0 - 0 % 2⟩ := by
  decide

/-- C4: `_lazy_mount` is idempotent. Already mounted: immediate success
without an engine mount call. Unmounted: the engine mount primitive runs,
success transitions to mounted, failure (and also a failed context
allocation) leaves the state unmounted with the translated error; and a
mounted outcome arises only from an existing mount or a fresh engine
mount call, so the single context slot is never double-allocated. -/
theorem lazy_mount_idempotent :
    (∀ a r, _lazy_mount true a r = (0, true, false)) ∧
    (_lazy_mount false true .FR_OK = (0, true, true)) ∧
    (∀ r, r ≠ .FR_OK →
      _lazy_mount false true r = (FRESULT_TO_OSCODE r, false, true)) ∧
    (∀ r, _lazy_mount false false r
      = (FRESULT_TO_OSCODE .FR_DISK_ERR, false, false)) ∧
    (∀ m a r, (_lazy_mount m a r).2.1 = true →
      m = true ∨ (_lazy_mount m a r).2.2 = true) := by
  refine ⟨fun a r => rfl, rfl, fun r hr => ?_, fun r => rfl, ?_⟩
  · simp [_lazy_mount, hr]
  · decide

/-- Witness for `lazy_mount_idempotent`: an already-mounted call, a failed
mount on `FR_NO_FILESYSTEM`, and the mounted-implies-mount-call clause at a
fresh successful mount. -/
theorem lazy_mount_idempotent_witness :
    _lazy_mount true true .FR_OK = (0, true, false) ∧
    _lazy_mount false true .FR_NO_FILESYSTEM
      = (FRESULT_TO_OSCODE .FR_NO_FILESYSTEM, false, true) ∧
    (false = true ∨ (_lazy_mount false true .FR_OK).2.2 = true) :=
  ⟨lazy_mount_idempotent.1 true .FR_OK,
   lazy_mount_idempotent.2.2.1 .FR_NO_FILESYSTEM (by decide),
   lazy_mount_idempotent.2.2.2.2 false true .FR_OK (by decide)⟩

/-- C5 (evaluation at the failing inputs): on a null/cleared handle the
handle-consuming operations return the positive value `ENOENT = 2` — not
the negative not-found code `-2` the claim requires (for read/write a
positive return is a byte count) — and after a first `release` the handle
slot still holds the object, so a second `release` invokes the engine
close again instead of being rejected. -/
theorem handle_ops_null_handle_eval :
    spi_fat_fuse_read none .FR_OK .FR_OK 0 = 2 ∧
    spi_fat_fuse_write none .FR_OK .FR_OK 0 = 2 ∧
    spi_fat_fuse_flush true true .FR_OK none .FR_OK = 2 ∧
    (spi_fat_fuse_release none .FR_OK).1 = 2 ∧
    ((2 : Int) ≠ -2) ∧
    (spi_fat_fuse_release (some ⟨7⟩) .FR_OK).2.1 = some ⟨7⟩ ∧
    (spi_fat_fuse_release
      ((spi_fat_fuse_release (some ⟨7⟩) .FR_OK).2.1) .FR_OK).2.2 = true := by
  decide

/-- C8 counterexample: a plain read-only open request (`flags = O_RDONLY`,
so no create flag and an exclusively-read access pattern) is given
read-write engine access, not the read-only access the claim states — the
source keys "read-only" off `O_ASYNC`, not the access mode. -/
theorem open_mode_readonly_counterexample :
    openMode O_RDONLY = (FA_READ ||| FA_WRITE) ∧ openMode O_RDONLY ≠ FA_READ := by
  decide

/-- C8 (amended): `spi_fat_fuse_open` performs no mount-assurance step
(the mount slot is untouched), translates the path with the hidden-name
mangling, computes the engine access mode as: `O_ASYNC` set selects
read-only, otherwise a create flag selects write-create-new, otherwise
read-write; on engine success it registers the file object as the
per-handle context, and on engine failure it returns the translated error
with no handle registered. -/
theorem open_behaviour (path : List Char) (flags : Nat)
    (engineOpen : List Char → Nat → FRESULT) (mounted : Bool) :
    (flags &&& O_ASYNC = O_ASYNC → openMode flags = FA_READ) ∧
    (flags &&& O_ASYNC ≠ O_ASYNC → flags &&& O_CREAT = O_CREAT →
      openMode flags = (FA_WRITE ||| FA_CREATE_NEW)) ∧
    (flags &&& O_ASYNC ≠ O_ASYNC → flags &&& O_CREAT ≠ O_CREAT →
      openMode flags = (FA_READ ||| FA_WRITE)) ∧
    ((spi_fat_fuse_open path flags true engineOpen mounted).calls
      = [.f_open (renameHidden path) (openMode flags)]) ∧
    ((spi_fat_fuse_open path flags true engineOpen mounted).mounted
      = mounted) ∧
    (engineOpen (renameHidden path) (openMode flags) = .FR_OK →
      (spi_fat_fuse_open path flags true engineOpen mounted).rv = 0 ∧
      (spi_fat_fuse_open path flags true engineOpen mounted).fh.isSome) ∧
    (∀ r, engineOpen (renameHidden path) (openMode flags) = r → r ≠ .FR_OK →
      (spi_fat_fuse_open path flags true engineOpen mounted).rv
          = FRESULT_TO_OSCODE r ∧
      (spi_fat_fuse_open path flags true engineOpen mounted).fh = none) := by
  refine ⟨fun h => by simp [openMode, h],
    fun h1 h2 => by simp [openMode, h1, h2],
    fun h1 h2 => by simp [openMode, h1, h2], ?_, ?_, ?_, ?_⟩
  · by_cases h : engineOpen (renameHidden path) (openMode flags) = .FR_OK <;>
      simp [spi_fat_fuse_open, h]
  · by_cases h : engineOpen (renameHidden path) (openMode flags) = .FR_OK <;>
      simp [spi_fat_fuse_open, h]
  · intro h
    simp [spi_fat_fuse_open, h]
  · intro r hr hne
    simp [spi_fat_fuse_open, hr, hne]

/-- Witness for `open_behaviour`: a create-mode open (`O_CREAT`, no
`O_ASYNC`) on `"/f"` against an engine accepting the call, and the failure
clause at an engine replying `FR_NO_FILE`. -/
theorem open_behaviour_witness :
    ((64 : Nat) &&& O_ASYNC ≠ O_ASYNC → (64 : Nat) &&& O_CREAT = O_CREAT →
      openMode 64 = (FA_WRITE ||| FA_CREATE_NEW)) ∧
    ((spi_fat_fuse_open ['/', 'f'] 64 true (fun _ _ => .FR_OK) true).rv = 0 ∧
      (spi_fat_fuse_open ['/', 'f'] 64 true
        (fun _ _ => .FR_OK) true).fh.isSome) ∧
    ((spi_fat_fuse_open ['/', 'f'] 0 true (fun _ _ => .FR_NO_FILE) true).rv
        = FRESULT_TO_OSCODE .FR_NO_FILE ∧
      (spi_fat_fuse_open ['/', 'f'] 0 true
        (fun _ _ => .FR_NO_FILE) true).fh = none) :=
  ⟨(open_behaviour ['/', 'f'] 64 (fun _ _ => .FR_OK) true).2.1,
   (open_behaviour ['/', 'f'] 64 (fun _ _ => .FR_OK) true).2.2.2.2.2.1 rfl,
   (open_behaviour ['/', 'f'] 0 (fun _ _ => .FR_NO_FILE) true).2.2.2.2.2.2
     .FR_NO_FILE rfl (by decide)⟩

/-- C9: for every path and argument value, chmod, chown and truncate return
success (0), leave every field of the adapter and engine state unchanged,
and invoke no engine primitive. -/
theorem nop_ops_frame (path : List Char) (mode uid gid off : Nat)
    (s : AdapterState) :
    spi_fat_fuse_chmod path mode s = (0, s, []) ∧
    spi_fat_fuse_chown path uid gid s = (0, s, []) ∧
    spi_fat_fuse_truncate path off s = (0, s, []) :=
  ⟨rfl, rfl, rfl⟩

/-- C10: for every host path whose final component starts with `'.'`,
unlink, mkdir, rmdir and utimens hand the host path to the engine
verbatim, while open and getattr hand over the `renameHidden` translation,
which differs from the host path — so the two groups address different
engine names. (`mounted = true` so the lazy-mount step of mkdir/rmdir
passes trivially.) -/
theorem verbatim_path_ops (d t : List Char) (ht : '/' ∉ t) (now : Tm)
    (res mountRes : FRESULT) (allocOk : Bool) (flags : Nat)
    (engineOpen : List Char → Nat → FRESULT)
    (stat : Nat → List Char → FRESULT × FILINFO) :
    (spi_fat_fuse_unlink (d ++ '/' :: '.' :: t) res).2
        = [.f_unlink (d ++ '/' :: '.' :: t)] ∧
    (spi_fat_fuse_mkdir (d ++ '/' :: '.' :: t) true allocOk mountRes res).2.2
        = [.f_mkdir (d ++ '/' :: '.' :: t)] ∧
    (spi_fat_fuse_rmdir (d ++ '/' :: '.' :: t) true allocOk mountRes res).2.2
        = [.f_rmdir (d ++ '/' :: '.' :: t)] ∧
    (spi_fat_fuse_utimens (d ++ '/' :: '.' :: t) now res).2
        = [.f_utime (d ++ '/' :: '.' :: t)
            (FATTimestampToDateTime (unixTimestampToFATTimestamp now)).1
            (FATTimestampToDateTime (unixTimestampToFATTimestamp now)).2] ∧
    (spi_fat_fuse_open (d ++ '/' :: '.' :: t) flags true engineOpen
        true).calls
        = [.f_open (renameHidden (d ++ '/' :: '.' :: t)) (openMode flags)] ∧
    (spi_fat_fuse_getattr (d ++ '/' :: '.' :: t) true allocOk mountRes
        stat).statPath
        = some (renameHidden (d ++ '/' :: '.' :: t)) ∧
    renameHidden (d ++ '/' :: '.' :: t) ≠ d ++ '/' :: '.' :: t := by
  have hroot : d ++ '/' :: '.' :: t ≠ ['/'] := by
    intro h
    have := congrArg List.length h
    simp at this
    omega
  have hne : renameHidden (d ++ '/' :: '.' :: t) ≠ d ++ '/' :: '.' :: t := by
    intro h
    rw [renameHidden_hidden_final d t ht] at h
    have hlen : (renameHidden d).length = d.length :=
      renameHiddenAux_length none d
    have := (List.append_inj h hlen).2
    simp at this
  refine ⟨rfl, rfl, rfl, rfl, ?_, ?_, hne⟩
  · by_cases h : engineOpen (renameHidden (d ++ '/' :: '.' :: t))
        (openMode flags) = .FR_OK <;>
      simp [spi_fat_fuse_open, h]
  · by_cases h : (fstat_retry
        (fun k => stat k (renameHidden (d ++ '/' :: '.' :: t))) 1 0).1
        = .FR_OK <;>
      simp [spi_fat_fuse_getattr, _lazy_mount, hroot, h]

/-- Witness for `verbatim_path_ops` at the host path `"/a/.hid"`. -/
theorem verbatim_path_ops_witness :
    (spi_fat_fuse_unlink (['/', 'a'] ++ '/' :: '.' :: ['h', 'i', 'd'])
        .FR_OK).2
        = [.f_unlink (['/', 'a'] ++ '/' :: '.' :: ['h', 'i', 'd'])] ∧
    (spi_fat_fuse_mkdir (['/', 'a'] ++ '/' :: '.' :: ['h', 'i', 'd']) true
        true .FR_OK .FR_OK).2.2
        = [.f_mkdir (['/', 'a'] ++ '/' :: '.' :: ['h', 'i', 'd'])] ∧
    (spi_fat_fuse_rmdir (['/', 'a'] ++ '/' :: '.' :: ['h', 'i', 'd']) true
        true .FR_OK .FR_OK).2.2
        = [.f_rmdir (['/', 'a'] ++ '/' :: '.' :: ['h', 'i', 'd'])] ∧
    (spi_fat_fuse_utimens (['/', 'a'] ++ '/' :: '.' :: ['h', 'i', 'd'])
        ⟨121, 5, 15, 14, 30, 0⟩ .FR_OK).2
        = [.f_utime (['/', 'a'] ++ '/' :: '.' :: ['h', 'i', 'd'])
            (FATTimestampToDateTime
              (unixTimestampToFATTimestamp ⟨121, 5, 15, 14, 30, 0⟩)).1
            (FATTimestampToDateTime
              (unixTimestampToFATTimestamp ⟨121, 5, 15, 14, 30, 0⟩)).2] ∧
    (spi_fat_fuse_open (['/', 'a'] ++ '/' :: '.' :: ['h', 'i', 'd']) 0 true
        (fun _ _ => .FR_OK) true).calls
        = [.f_open (renameHidden
            (['/', 'a'] ++ '/' :: '.' :: ['h', 'i', 'd'])) (openMode 0)] ∧
    (spi_fat_fuse_getattr (['/', 'a'] ++ '/' :: '.' :: ['h', 'i', 'd']) true
        true .FR_OK (fun _ _ => (.FR_OK, ⟨['h'], 0, 0, 0, 0⟩))).statPath
        = some (renameHidden (['/', 'a'] ++ '/' :: '.' :: ['h', 'i', 'd'])) ∧
    renameHidden (['/', 'a'] ++ '/' :: '.' :: ['h', 'i', 'd'])
        ≠ ['/', 'a'] ++ '/' :: '.' :: ['h', 'i', 'd'] :=
  verbatim_path_ops ['/', 'a'] ['h', 'i', 'd'] (by decide)
    ⟨121, 5, 15, 14, 30, 0⟩ .FR_OK .FR_OK true 0 (fun _ _ => .FR_OK)
    (fun _ _ => (.FR_OK, ⟨['h'], 0, 0, 0, 0⟩))

theorem demangleName_id (l : List Char) (h : l.head? ≠ some '_') :
    demangleName l = l := by
  cases l with
  | nil => rfl
  | cons c rest =>
      have hc : c ≠ '_' := by simpa using h
      simp [demangleName, hc]

/-- C2: enumerating a directory whose engine stream holds entries `A` then
`B`. From offset 0 the call delivers, in order, the synthetic `"."` and
`".."` (directories with link count 2, positions 1 and 2 — the position
counter pre-incremented before real entries), then `A` at position 3 and
`B` at position 4, and ends with success when the engine reports the empty
name. If the filler rejects `B` (or `A`), the call ends with success, the
stream is rewound by exactly one entry, and the next call resuming at the
last accepted position re-delivers exactly the rejected entry at its
original position — across the two calls each of `"."`, `".."`, `A`, `B`
is delivered exactly once. -/
theorem readdir_enumeration (mk : Tm → Int) (a b : FILINFO)
    (ha : a.fname ≠ []) (hb : b.fname ≠ [])
    (ha' : a.fname.head? ≠ some '_') (hb' : b.fname.head? ≠ some '_') :
    (spi_fat_fuse_readdir (recFiller (fun _ => true)) mk 0
        (some ⟨[], [(.FR_OK, a), (.FR_OK, b)]⟩) [] true true .FR_OK
      = ⟨0, some ⟨[(.FR_OK, b), (.FR_OK, a)], []⟩,
         [(['.'], dotStat, 1), (['.', '.'], dotStat, 2),
          (a.fname, statOfFinfo mk a, 3), (b.fname, statOfFinfo mk b, 4)],
         true⟩) ∧
    (spi_fat_fuse_readdir (recFiller (fun k => k < 3)) mk 0
        (some ⟨[], [(.FR_OK, a), (.FR_OK, b)]⟩) [] true true .FR_OK
      = ⟨0, some ⟨[(.FR_OK, a)], [(.FR_OK, b)]⟩,
         [(['.'], dotStat, 1), (['.', '.'], dotStat, 2),
          (a.fname, statOfFinfo mk a, 3)], true⟩) ∧
    (spi_fat_fuse_readdir (recFiller (fun _ => true)) mk 3
        (some ⟨[(.FR_OK, a)], [(.FR_OK, b)]⟩) [] true true .FR_OK
      = ⟨0, some ⟨[(.FR_OK, b), (.FR_OK, a)], []⟩,
         [(b.fname, statOfFinfo mk b, 4)], true⟩) ∧
    (spi_fat_fuse_readdir (recFiller (fun k => k < 2)) mk 0
        (some ⟨[], [(.FR_OK, a), (.FR_OK, b)]⟩) [] true true .FR_OK
      = ⟨0, some ⟨[], [(.FR_OK, a), (.FR_OK, b)]⟩,
         [(['.'], dotStat, 1), (['.', '.'], dotStat, 2)], true⟩) ∧
    (spi_fat_fuse_readdir (recFiller (fun _ => true)) mk 2
        (some ⟨[], [(.FR_OK, a), (.FR_OK, b)]⟩) [] true true .FR_OK
      = ⟨0, some ⟨[(.FR_OK, b), (.FR_OK, a)], []⟩,
         [(a.fname, statOfFinfo mk a, 3), (b.fname, statOfFinfo mk b, 4)],
         true⟩) := by
  have hda := demangleName_id a.fname ha'
  have hdb := demangleName_id b.fname hb'
  refine ⟨?_, ?_, ?_, ?_, ?_⟩ <;>
    simp [spi_fat_fuse_readdir, _lazy_mount, f_readdir, readdirLoop,
      f_seekdir_back1, recFiller, FRESULT_TO_OSCODE, ha, hb, hda, hdb]

/-- Witness for `readdir_enumeration` at the entries `x` and `y` and a
constant `mktime`. -/
theorem readdir_enumeration_witness :
    (spi_fat_fuse_readdir (recFiller (fun _ => true)) (fun _ => 0) 0
        (some ⟨[], [(.FR_OK, ⟨['x'], 0, 0, 0, 0⟩),
          (.FR_OK, ⟨['y'], 0, 0, 0, 0⟩)]⟩) [] true true .FR_OK
      = ⟨0, some ⟨[(.FR_OK, ⟨['y'], 0, 0, 0, 0⟩),
          (.FR_OK, ⟨['x'], 0, 0, 0, 0⟩)], []⟩,
         [(['.'], dotStat, 1), (['.', '.'], dotStat, 2),
          (['x'], statOfFinfo (fun _ => 0) ⟨['x'], 0, 0, 0, 0⟩, 3),
          (['y'], statOfFinfo (fun _ => 0) ⟨['y'], 0, 0, 0, 0⟩, 4)],
         true⟩) ∧
    (spi_fat_fuse_readdir (recFiller (fun k => k < 3)) (fun _ => 0) 0
        (some ⟨[], [(.FR_OK, ⟨['x'], 0, 0, 0, 0⟩),
          (.FR_OK, ⟨['y'], 0, 0, 0, 0⟩)]⟩) [] true true .FR_OK
      = ⟨0, some ⟨[(.FR_OK, ⟨['x'], 0, 0, 0, 0⟩)],
          [(.FR_OK, ⟨['y'], 0, 0, 0, 0⟩)]⟩,
         [(['.'], dotStat, 1), (['.', '.'], dotStat, 2),
          (['x'], statOfFinfo (fun _ => 0) ⟨['x'], 0, 0, 0, 0⟩, 3)],
         true⟩) ∧
    (spi_fat_fuse_readdir (recFiller (fun _ => true)) (fun _ => 0) 3
        (some ⟨[(.FR_OK, ⟨['x'], 0, 0, 0, 0⟩)],
          [(.FR_OK, ⟨['y'], 0, 0, 0, 0⟩)]⟩) [] true true .FR_OK
      = ⟨0, some ⟨[(.FR_OK, ⟨['y'], 0, 0, 0, 0⟩),
          (.FR_OK, ⟨['x'], 0, 0, 0, 0⟩)], []⟩,
         [(['y'], statOfFinfo (fun _ => 0) ⟨['y'], 0, 0, 0, 0⟩, 4)],
         true⟩) ∧
    (spi_fat_fuse_readdir (recFiller (fun k => k < 2)) (fun _ => 0) 0
        (some ⟨[], [(.FR_OK, ⟨['x'], 0, 0, 0, 0⟩),
          (.FR_OK, ⟨['y'], 0, 0, 0, 0⟩)]⟩) [] true true .FR_OK
      = ⟨0, some ⟨[], [(.FR_OK, ⟨['x'], 0, 0, 0, 0⟩),
          (.FR_OK, ⟨['y'], 0, 0, 0, 0⟩)]⟩,
         [(['.'], dotStat, 1), (['.', '.'], dotStat, 2)], true⟩) ∧
    (spi_fat_fuse_readdir (recFiller (fun _ => true)) (fun _ => 0) 2
        (some ⟨[], [(.FR_OK, ⟨['x'], 0, 0, 0, 0⟩),
          (.FR_OK, ⟨['y'], 0, 0, 0, 0⟩)]⟩) [] true true .FR_OK
      = ⟨0, some ⟨[(.FR_OK, ⟨['y'], 0, 0, 0, 0⟩),
          (.FR_OK, ⟨['x'], 0, 0, 0, 0⟩)], []⟩,
         [(['x'], statOfFinfo (fun _ => 0) ⟨['x'], 0, 0, 0, 0⟩, 3),
          (['y'], statOfFinfo (fun _ => 0) ⟨['y'], 0, 0, 0, 0⟩, 4)],
         true⟩) :=
  readdir_enumeration (fun _ => 0) ⟨['x'], 0, 0, 0, 0⟩ ⟨['y'], 0, 0, 0, 0⟩
    (by decide) (by decide) (by decide) (by decide)

/-- C3 counterexample: a disk-level fault reported by the second engine
read of the enumeration (stream: one good entry `x`, then `FR_DISK_ERR`).
The call returns the translated error `-EINTR = -4`, but the mount state is
NOT forced to unmounted — the source only invalidates the mount for a
fault on the first read of the call, so the claim's "every engine
directory-read" is false here. -/
theorem readdir_loop_fault_keeps_mount :
    (spi_fat_fuse_readdir (recFiller (fun _ => true)) (fun _ => 0) 0
        (some ⟨[], [(.FR_OK, ⟨['x'], 0, 0, 0, 0⟩),
          (.FR_DISK_ERR, ⟨['x'], 0, 0, 0, 0⟩)]⟩) [] true true .FR_OK).rv
        = -4 ∧
    (spi_fat_fuse_readdir (recFiller (fun _ => true)) (fun _ => 0) 0
        (some ⟨[], [(.FR_OK, ⟨['x'], 0, 0, 0, 0⟩),
          (.FR_DISK_ERR, ⟨['x'], 0, 0, 0, 0⟩)]⟩) [] true true
        .FR_OK).mounted = true := by
  decide

/-- C3 (amended): a disk-level fault on the FIRST engine read of an
enumeration call clears the mount slot before the translated error is
returned, and the next `getattr("/")` then performs a fresh engine mount
attempt before answering; whereas after a successful first read the call
never clears the mount slot, so a disk fault on a later read of the same
call returns the translated error with the mount context left in place. -/
theorem readdir_first_read_fault_invalidates {σ : Type} (filler : Filler σ)
    (mk : Tm → Int) (s : σ) (offset : Nat) (junk : FILINFO)
    (past rest : List (FRESULT × FILINFO)) (mountRes : FRESULT)
    (stat : Nat → List Char → FRESULT × FILINFO) (a : FILINFO)
    (more : List (FRESULT × FILINFO)) :
    ((spi_fat_fuse_readdir filler mk offset
        (some ⟨past, (.FR_DISK_ERR, junk) :: rest⟩) s true true
        mountRes).rv = FRESULT_TO_OSCODE .FR_DISK_ERR) ∧
    ((spi_fat_fuse_readdir filler mk offset
        (some ⟨past, (.FR_DISK_ERR, junk) :: rest⟩) s true true
        mountRes).mounted = false) ∧
    ((spi_fat_fuse_getattr ['/'] false true .FR_OK stat).mountCalled
        = true) ∧
    ((spi_fat_fuse_getattr ['/'] false true .FR_OK stat).rv = 0) ∧
    ((spi_fat_fuse_getattr ['/'] false true .FR_OK stat).mounted = true) ∧
    ((spi_fat_fuse_readdir filler mk offset
        (some ⟨past, (.FR_OK, a) :: more⟩) s true true mountRes).mounted
        = true) := by
  refine ⟨?_, ?_, rfl, rfl, rfl, ?_⟩ <;>
    simp [spi_fat_fuse_readdir, _lazy_mount, f_readdir]

end SpiFatFuse
